import Mathlib

/-!
Shallow embedding of the similarity ranker of `src/app.py` (a single-file
Streamlit movie recommender).  The only original computation in the app is
the function `recommend(movie)` (app.py lines 407-475) together with the
module-level diagnostic `check_alignment()` (lines 223-238).  Everything
below models that code:

* a catalog row of the `movies` DataFrame becomes an `Item` (display
  `title` plus optional `movie_id`);
* the pickled similarity matrix becomes a `List (List Cell)`, where a
  `Cell` is either a finite numeric value (modelled as a rational, the
  idealisation of a finite Python float), a NaN, Python's `None`, or a
  value on which `float(...)` raises;
* Python's `sorted(cleaned, key=lambda x: x[1], reverse=True)` is a stable
  sort placing larger scores first; it is modelled by Mathlib's
  `List.insertionSort` with the relation `pyLE` (also a stable sort, so it
  computes the same list);
* exceptions caught by the code's `try/except` blocks become `Option`
  plumbing; the embedding is a total function, which reflects the code's
  guarantee that no exception escapes `recommend`.

All functions are computable so concrete runs can be checked by `decide`.
-/

namespace MovieApp

/-- Value found in one cell of the pickled similarity matrix.  `num v` is a
finite numeric value (`float(s)` succeeds and is not NaN); `nan` is a float
NaN; `null` is Python `None`; `bad` is a value on which `float(s)` raises. -/
inductive Cell where
  | num (val : ℚ)
  | nan
  | null
  | bad
deriving DecidableEq

/-- One row of the `movies` DataFrame: a display title and the optional
TMDB identifier (the `movie_id` column, `None` for placeholder rows). -/
structure Item where
  title : String
  movie_id : Option Nat
deriving DecidableEq

/-- The pickled similarity matrix, as a list of rows. -/
abbrev SimMatrix := List (List Cell)

/-- Model of the loop body at app.py:442-452: skip `None`, skip values on
which `float` raises, skip NaN, keep the finite numeric value. -/
def cellToFloat : Cell → Option ℚ
  | Cell.num v => some v
  | Cell.nan => Option.none
  | Cell.null => Option.none
  | Cell.bad => Option.none

/-- Model of Python `enumerate` starting at `n`. -/
def enumFromN (n : Nat) : List α → List (Nat × α)
  | [] => []
  | c :: rest => (n, c) :: enumFromN (n + 1) rest

/-- Model of `list(enumerate(row))` (app.py:428).  For a list-valued row the
`isinstance(row, (list, tuple))` test at line 427 is true, so the code always
takes the `distances = list(enumerate(row))` branch. -/
def pyEnum (l : List α) : List (Nat × α) := enumFromN 0 l

/-- Model of the cleaning loop at app.py:441-452: keep exactly the cells that
convert to a finite float, paired with their index. -/
def cleanDistances (ds : List (Nat × Cell)) : List (Nat × ℚ) :=
  ds.filterMap fun p => (cellToFloat p.2).map fun v => (p.1, v)

/-- Comparison used by `sorted(cleaned, key=lambda x: x[1], reverse=True)`
(app.py:455): `a` may come before `b` iff `a`'s score is at least `b`'s. -/
def pyLE (a b : Nat × ℚ) : Prop := b.2 ≤ a.2

instance : DecidableRel pyLE := fun a b => inferInstanceAs (Decidable (b.2 ≤ a.2))

/-- Model of app.py:455.  Python's `sorted` is a stable sort; so is
`List.insertionSort`, hence both compute the same list for the same
(total, transitive) comparison. -/
def sortByScoreDesc (l : List (Nat × ℚ)) : List (Nat × ℚ) :=
  l.insertionSort pyLE

/-- Model of `movies.index[movies["title"] == movie].tolist()` followed by
`idxs[0]` (app.py:414-417): index of the first catalog item whose title
equals the query, `none` when there is no such item. -/
def findMovieIndex (movie : String) : List Item → Option Nat
  | [] => Option.none
  | it :: rest =>
      if it.title = movie then some 0
      else (findMovieIndex movie rest).map (· + 1)

/-- The cleaned, sorted candidate list with the seed movie removed
(app.py:455-458), before truncation. -/
def validCandidates (movie_index : Nat) (row : List Cell) : List (Nat × ℚ) :=
  (sortByScoreDesc (cleanDistances (pyEnum row))).filter fun t => t.1 != movie_index

/-- Model of `top_n = cleaned[:5]` (app.py:459). -/
def top_n (movie_index : Nat) (row : List Cell) : List (Nat × ℚ) :=
  (validCandidates movie_index row).take 5

/-- Model of the emission loop at app.py:461-473, restricted to the
recommended titles (`rec_titles`; the parallel `rec_posters` list is built
from network fetches and is outside the pure core).  Out-of-range candidate
indices are skipped (`if idx < 0 or idx >= len(movies): continue`); with
`Nat` indices only the upper bound can fail.  The `title` column always
exists (ensured at load, app.py:110-111), so `movies.iloc[idx].get("title", ...)`
is exactly the catalog entry's title. -/
def emitTitles (catalog : List Item) (top : List (Nat × ℚ)) : List String :=
  top.filterMap fun t =>
    if t.1 < catalog.length then (catalog.get? t.1).map Item.title else Option.none

/-- The (index, score) pairs that survive to the emission loop of
`recommend` (app.py:407-459): guard clauses, title resolution, row
extraction (an `IndexError` on `similarity[movie_index]` is caught and
yields the empty result), cleaning, sorting, self-exclusion, truncation. -/
def recommendPairs (movie : String) (catalog : List Item) (sim : Option SimMatrix) :
    List (Nat × ℚ) :=
  match sim with
  | Option.none => []
  | Option.some similarity =>
      if catalog.isEmpty then []
      else
        match findMovieIndex movie catalog with
        | Option.none => []
        | Option.some movie_index =>
            match similarity.get? movie_index with
            | Option.none => []
            | Option.some row => top_n movie_index row

/-- Model of `recommend(movie)` (app.py:407-475), returning the list of
recommended titles (`rec_titles`). -/
def recommend (movie : String) (catalog : List Item) (sim : Option SimMatrix) :
    List String :=
  emitTitles catalog (recommendPairs movie catalog sim)

/-- Model of `check_alignment()` (app.py:223-235): returns
`(len(movies), len(similarity)?, diagnostic message)`; the message is
non-empty exactly when it is displayed by `st.warning` (app.py:254-255). -/
def check_alignment (catalog : List Item) (sim : Option SimMatrix) :
    Nat × Option Nat × String :=
  match sim with
  | Option.none => (catalog.length, Option.none, "similarity matrix not found")
  | Option.some s =>
      let l := s.length
      let msg :=
        if l ≠ catalog.length then
          "Warning: length mismatch — movies: " ++ toString catalog.length ++
            " vs similarity: " ++ toString l
        else ""
      (catalog.length, Option.some l, msg)

/-- Strict total order "higher score first, ties by lower index". -/
def specLT (a b : Nat × ℚ) : Prop := b.2 < a.2 ∨ (a.2 = b.2 ∧ a.1 < b.1)

/-- Reflexive total order "higher score first, ties by lower index", the
order the spec mandates for the result. -/
def specLE (a b : Nat × ℚ) : Prop := b.2 < a.2 ∨ (a.2 = b.2 ∧ a.1 ≤ b.1)

instance : DecidableRel specLT := fun a b =>
  inferInstanceAs (Decidable (b.2 < a.2 ∨ (a.2 = b.2 ∧ a.1 < b.1)))

instance : DecidableRel specLE := fun a b =>
  inferInstanceAs (Decidable (b.2 < a.2 ∨ (a.2 = b.2 ∧ a.1 ≤ b.1)))

instance : IsTotal (Nat × ℚ) specLE where
  total a b := by
    rcases lt_trichotomy a.2 b.2 with h | h | h
    · exact Or.inr (Or.inl h)
    · rcases Nat.le_total a.1 b.1 with h' | h'
      · exact Or.inl (Or.inr ⟨h, h'⟩)
      · exact Or.inr (Or.inr ⟨h.symm, h'⟩)
    · exact Or.inl (Or.inl h)

instance : IsTrans (Nat × ℚ) specLE where
  trans a b c hab hbc := by
    rcases hab with hab | ⟨hab, hab'⟩
    · rcases hbc with hbc | ⟨hbc, _⟩
      · exact Or.inl (hbc.trans hab)
      · exact Or.inl (hbc ▸ hab)
    · rcases hbc with hbc | ⟨hbc, hbc'⟩
      · exact Or.inl (hab ▸ hbc)
      · exact Or.inr ⟨hab.trans hbc, hab'.trans hbc'⟩

instance : IsAntisymm (Nat × ℚ) specLE where
  antisymm a b hab hba := by
    rcases hab with hab | ⟨hab, hab'⟩
    · rcases hba with hba | ⟨hba, _⟩
      · exact absurd (hab.trans hba) (lt_irrefl _)
      · exact absurd hab (hba ▸ lt_irrefl _)
    · rcases hba with hba | ⟨_, hba'⟩
      · exact absurd hba (hab ▸ lt_irrefl _)
      · exact Prod.ext (Nat.le_antisymm hab' hba') hab

/-- Spec-side pipeline, transcribed from §4.1 of the specification: resolve
the title by first match, read the query row, keep finite numeric cells,
remove the query's own index, sort by descending score with exact ties by
ascending index, truncate to `k`, and map each surviving index to its
catalog item's title. -/
def recommendSpec (movie : String) (catalog : List Item) (matrix : SimMatrix)
    (k : Nat) : List String :=
  match findMovieIndex movie catalog with
  | Option.none => []
  | Option.some qi =>
      match matrix.get? qi with
      | Option.none => []
      | Option.some row =>
          let pairs := (cleanDistances (pyEnum row)).filter fun t => t.1 != qi
          let sorted := pairs.insertionSort specLE
          (sorted.take k).filterMap fun t => (catalog.get? t.1).map Item.title

/-- Ranking pipeline run from a fixed already-resolved catalog index. -/
def rankFromIndex (movie_index : Nat) (sim : Option SimMatrix) : List (Nat × ℚ) :=
  match sim with
  | Option.none => []
  | Option.some similarity =>
      match similarity.get? movie_index with
      | Option.none => []
      | Option.some row => top_n movie_index row

/-! Concrete data for witnesses and counterexamples.  Rationals are written
as explicit `Rat.mk'` literals so the kernel can evaluate comparisons
without normalising fractions: `q45` denotes 0.8 and `q15` denotes 0.2. -/

/-- Rational 4/5, i.e. the float 0.8 of the spec's worked example. -/
def q45 : ℚ := ⟨4, 5, by norm_num, by norm_num⟩

/-- Rational 1/5, i.e. the float 0.2 of the spec's worked example. -/
def q15 : ℚ := ⟨1, 5, by norm_num, by norm_num⟩

/-- Catalog [A(0), B(1), C(2)] of the spec's worked example. -/
def exCatalog : List Item :=
  [⟨"A", Option.none⟩, ⟨"B", Option.none⟩, ⟨"C", Option.none⟩]

/-- Matrix row for A of the spec's worked example: [1.0, 0.8, 0.2]. -/
def exRowA : List Cell := [Cell.num 1, Cell.num q45, Cell.num q15]

/-- A 3x3 similarity matrix whose row for A is `exRowA`. -/
def exMatrix : SimMatrix :=
  [exRowA,
   [Cell.num q45, Cell.num 1, Cell.num q15],
   [Cell.num q15, Cell.num q15, Cell.num 1]]

/-- A 5x5 matrix paired with the 3-item catalog: a size mismatch. -/
def exMatrix5 : SimMatrix :=
  [[Cell.num 1, Cell.num 8, Cell.num 2, Cell.num 9, Cell.num 7],
   [Cell.num 8, Cell.num 1, Cell.num 2, Cell.num 3, Cell.num 4],
   [Cell.num 2, Cell.num 2, Cell.num 1, Cell.num 3, Cell.num 4],
   [Cell.num 9, Cell.num 3, Cell.num 3, Cell.num 1, Cell.num 4],
   [Cell.num 7, Cell.num 4, Cell.num 4, Cell.num 4, Cell.num 1]]

/-- Catalog with a duplicated title, for the first-match policy. -/
def exDupCatalog : List Item :=
  [⟨"A", Option.none⟩, ⟨"B", Option.none⟩, ⟨"A", Option.none⟩]

/-- Row for A containing a NaN cell, as in spec example 4. -/
def exRowNaN : List Cell := [Cell.num 1, Cell.nan, Cell.num q15]

/-- A 3x3 matrix whose row for A contains a NaN. -/
def exMatrixNaN : SimMatrix :=
  [exRowNaN,
   [Cell.num q45, Cell.num 1, Cell.num q15],
   [Cell.num q15, Cell.num q15, Cell.num 1]]

/-! Helper lemmas. -/

theorem enumFromN_get? (l : List α) :
    ∀ (n i : Nat), (enumFromN n l).get? i = (l.get? i).map fun c => (n + i, c) := by
  induction l with
  | nil => intro n i; simp [enumFromN]
  | cons c rest ih =>
      intro n i
      cases i with
      | zero => simp [enumFromN]
      | succ j =>
          have harith : n + 1 + j = n + (j + 1) := by omega
          simp only [enumFromN, List.get?_cons_succ, ih (n + 1) j, harith]

theorem mem_pyEnum {l : List α} {i : Nat} {c : α} :
    (i, c) ∈ pyEnum l ↔ l.get? i = some c := by
  constructor
  · intro h
    obtain ⟨j, hj⟩ := List.mem_iff_get?.1 h
    rw [pyEnum, enumFromN_get?] at hj
    obtain ⟨c', hc', heq⟩ := Option.map_eq_some'.1 hj
    obtain ⟨h1, h2⟩ := Prod.mk.injEq .. ▸ heq
    simp only [Nat.zero_add] at h1
    rw [← h1, hc', h2]
  · intro h
    refine List.mem_iff_get?.2 ⟨i, ?_⟩
    rw [pyEnum, enumFromN_get?, h]
    simp

theorem fst_le_of_mem_enumFromN :
    ∀ (l : List α) (n : Nat) (p : Nat × α), p ∈ enumFromN n l → n ≤ p.1 := by
  intro l
  induction l with
  | nil => intro n p h; simp [enumFromN] at h
  | cons c rest ih =>
      intro n p h
      rcases List.mem_cons.1 h with h | h
      · rw [h]
      · exact Nat.le_of_succ_le (ih (n + 1) p h)

theorem pairwise_fst_enumFromN (l : List α) :
    ∀ (n : Nat), (enumFromN n l).Pairwise fun a b => a.1 < b.1 := by
  induction l with
  | nil => intro n; simp [enumFromN]
  | cons c rest ih =>
      intro n
      refine List.pairwise_cons.2 ⟨?_, ih (n + 1)⟩
      intro b hb
      exact Nat.lt_of_succ_le (fst_le_of_mem_enumFromN rest (n + 1) b hb)

theorem mem_cleanDistances {ds : List (Nat × Cell)} {i : Nat} {v : ℚ} :
    (i, v) ∈ cleanDistances ds ↔ (i, Cell.num v) ∈ ds := by
  unfold cleanDistances
  rw [List.mem_filterMap]
  constructor
  · rintro ⟨⟨a, c⟩, hmem, heq⟩
    cases c with
    | num w =>
        simp only [cellToFloat, Option.map_some'] at heq
        obtain ⟨h1, h2⟩ := Prod.mk.injEq .. ▸ Option.some.inj heq
        rw [← h1, ← h2]; exact hmem
    | nan => simp [cellToFloat] at heq
    | null => simp [cellToFloat] at heq
    | bad => simp [cellToFloat] at heq
  · intro hmem
    exact ⟨(i, Cell.num v), hmem, rfl⟩

theorem mem_cleanRow {row : List Cell} {i : Nat} {v : ℚ} :
    (i, v) ∈ cleanDistances (pyEnum row) ↔ row.get? i = some (Cell.num v) :=
  mem_cleanDistances.trans mem_pyEnum

theorem pairwise_fst_cleanDistances {ds : List (Nat × Cell)}
    (h : ds.Pairwise fun a b => a.1 < b.1) :
    (cleanDistances ds).Pairwise fun a b => a.1 < b.1 := by
  unfold cleanDistances
  rw [List.pairwise_filterMap]
  refine h.imp ?_
  rintro a b hab x hx y hy
  obtain ⟨va, -, hxa⟩ := Option.map_eq_some'.1 hx
  obtain ⟨vb, -, hyb⟩ := Option.map_eq_some'.1 hy
  rw [← hxa, ← hyb]
  exact hab

theorem orderedInsert_pairwise_specLT (a : Nat × ℚ) :
    ∀ (L : List (Nat × ℚ)), L.Pairwise specLT → (∀ b ∈ L, a.1 < b.1) →
      (List.orderedInsert pyLE a L).Pairwise specLT := by
  intro L
  induction L with
  | nil => intro _ _; exact List.pairwise_singleton _ _
  | cons b L ih =>
      intro hL ha
      obtain ⟨hbL, hL'⟩ := List.pairwise_cons.1 hL
      show (if pyLE a b then a :: b :: L else b :: List.orderedInsert pyLE a L).Pairwise specLT
      by_cases h : pyLE a b
      · rw [if_pos h]
        refine List.pairwise_cons.2 ⟨?_, hL⟩
        intro c hc
        have hac : a.1 < c.1 := ha c hc
        have hcs : c.2 ≤ a.2 := by
          rcases List.mem_cons.1 hc with rfl | hc'
          · exact h
          · rcases hbL c hc' with hlt | ⟨heq, _⟩
            · exact le_of_lt (lt_of_lt_of_le hlt h)
            · exact heq ▸ h
        rcases lt_or_eq_of_le hcs with hlt | heq
        · exact Or.inl hlt
        · exact Or.inr ⟨heq.symm, hac⟩
      · rw [if_neg h]
        have hab : a.2 < b.2 := lt_of_not_le h
        refine List.pairwise_cons.2 ⟨?_, ?_⟩
        · intro c hc
          rcases List.mem_cons.1 ((List.perm_orderedInsert pyLE a L).mem_iff.1 hc) with rfl | hc'
          · exact Or.inl hab
          · exact hbL c hc'
        · exact ih hL' fun c hc => ha c (List.mem_cons_of_mem b hc)

theorem sortByScoreDesc_pairwise_specLT :
    ∀ {l : List (Nat × ℚ)}, (l.Pairwise fun a b => a.1 < b.1) →
      (sortByScoreDesc l).Pairwise specLT := by
  intro l
  induction l with
  | nil => intro _; exact List.Pairwise.nil
  | cons a l ih =>
      intro h
      obtain ⟨ha, hl⟩ := List.pairwise_cons.1 h
      show (List.orderedInsert pyLE a (List.insertionSort pyLE l)).Pairwise specLT
      exact orderedInsert_pairwise_specLT a _ (ih hl)
        fun b hb => ha b ((List.mem_insertionSort pyLE).1 hb)

theorem specLT_le : ∀ {a b : Nat × ℚ}, specLT a b → specLE a b := by
  rintro a b (h | ⟨h1, h2⟩)
  · exact Or.inl h
  · exact Or.inr ⟨h1, Nat.le_of_lt h2⟩

theorem validCandidates_pairwise_specLT (mi : Nat) (row : List Cell) :
    (validCandidates mi row).Pairwise specLT :=
  List.Pairwise.sublist (List.filter_sublist _)
    (sortByScoreDesc_pairwise_specLT (pairwise_fst_cleanDistances (pairwise_fst_enumFromN row 0)))

theorem top_n_pairwise_specLT (mi : Nat) (row : List Cell) :
    (top_n mi row).Pairwise specLT :=
  List.Pairwise.sublist (List.take_sublist _ _) (validCandidates_pairwise_specLT mi row)

theorem mem_validCandidates {mi : Nat} {row : List Cell} {p : Nat × ℚ} :
    p ∈ validCandidates mi row ↔ row.get? p.1 = some (Cell.num p.2) ∧ p.1 ≠ mi := by
  obtain ⟨i, v⟩ := p
  unfold validCandidates sortByScoreDesc
  rw [List.mem_filter, List.mem_insertionSort, mem_cleanRow, bne_iff_ne]

theorem mem_top_n {mi : Nat} {row : List Cell} {p : Nat × ℚ} (h : p ∈ top_n mi row) :
    p ∈ validCandidates mi row :=
  (List.take_sublist _ _).subset h

theorem findMovieIndex_spec {movie : String} :
    ∀ {catalog : List Item} {qi : Nat}, findMovieIndex movie catalog = some qi →
      ∃ it, catalog.get? qi = some it ∧ it.title = movie ∧
        ∀ j it', j < qi → catalog.get? j = some it' → it'.title ≠ movie := by
  intro catalog
  induction catalog with
  | nil => intro qi h; simp [findMovieIndex] at h
  | cons it rest ih =>
      intro qi h
      by_cases ht : it.title = movie
      · rw [findMovieIndex, if_pos ht] at h
        obtain rfl : (0 : Nat) = qi := Option.some.inj h
        exact ⟨it, rfl, ht, fun j it' hj _ => absurd hj (Nat.not_lt_zero j)⟩
      · rw [findMovieIndex, if_neg ht] at h
        obtain ⟨q', hq', hsum⟩ := Option.map_eq_some'.1 h
        obtain ⟨it2, hget, htitle, hmin⟩ := ih hq'
        refine ⟨it2, ?_, htitle, ?_⟩
        · rw [← hsum, List.get?_cons_succ]; exact hget
        · intro j it' hj hget'
          cases j with
          | zero =>
              obtain rfl : it = it' := Option.some.inj hget'
              exact ht
          | succ j' =>
              rw [List.get?_cons_succ] at hget'
              exact hmin j' it' (by omega) hget'

theorem findMovieIndex_not_nil {movie : String} {catalog : List Item} {qi : Nat}
    (h : findMovieIndex movie catalog = some qi) : catalog.isEmpty = false := by
  cases catalog with
  | nil => simp [findMovieIndex] at h
  | cons it rest => rfl

theorem findMovieIndex_lt_length {movie : String} {catalog : List Item} {qi : Nat}
    (h : findMovieIndex movie catalog = some qi) : qi < catalog.length := by
  obtain ⟨it, hget, -, -⟩ := findMovieIndex_spec h
  obtain ⟨hlt, -⟩ := List.get?_eq_some.1 hget
  exact hlt

theorem findMovieIndex_eq_none {movie : String} :
    ∀ {catalog : List Item}, (∀ it ∈ catalog, it.title ≠ movie) →
      findMovieIndex movie catalog = Option.none := by
  intro catalog
  induction catalog with
  | nil => intro _; rfl
  | cons it rest ih =>
      intro h
      rw [findMovieIndex, if_neg (h it (List.mem_cons_self it rest)),
        ih fun it' hit' => h it' (List.mem_cons_of_mem it hit')]
      rfl

theorem recommendPairs_of_found {movie : String} {catalog : List Item}
    {sim : Option SimMatrix} {qi : Nat} (h : findMovieIndex movie catalog = some qi) :
    recommendPairs movie catalog sim = rankFromIndex qi sim := by
  cases sim with
  | none => rfl
  | some s =>
      rw [recommendPairs, rankFromIndex, findMovieIndex_not_nil h, h]
      rfl

theorem recommendPairs_pairwise_specLT (movie : String) (catalog : List Item)
    (sim : Option SimMatrix) : (recommendPairs movie catalog sim).Pairwise specLT := by
  unfold recommendPairs
  split
  · exact List.Pairwise.nil
  · split
    · exact List.Pairwise.nil
    · split
      · exact List.Pairwise.nil
      · split
        · exact List.Pairwise.nil
        · exact top_n_pairwise_specLT _ _

theorem mem_recommendPairs {movie : String} {catalog : List Item}
    {sim : Option SimMatrix} {p : Nat × ℚ} (h : p ∈ recommendPairs movie catalog sim) :
    ∃ qi row matrix, sim = Option.some matrix ∧ findMovieIndex movie catalog = some qi ∧
      matrix.get? qi = some row ∧ row.get? p.1 = some (Cell.num p.2) ∧ p.1 ≠ qi := by
  unfold recommendPairs at h
  split at h
  · exact absurd h (List.not_mem_nil p)
  · rename_i s
    split at h
    · exact absurd h (List.not_mem_nil p)
    · split at h
      · exact absurd h (List.not_mem_nil p)
      · rename_i mi hf
        split at h
        · exact absurd h (List.not_mem_nil p)
        · rename_i row hr
          obtain ⟨hrow, hne⟩ := mem_validCandidates.1 (mem_top_n h)
          exact ⟨mi, row, s, rfl, hf, hr, hrow, hne⟩

theorem mem_recommend_titles {movie : String} {catalog : List Item}
    {sim : Option SimMatrix} {t : String} (h : t ∈ recommend movie catalog sim) :
    t ∈ catalog.map Item.title := by
  rw [recommend, emitTitles] at h
  obtain ⟨p, -, hp⟩ := List.mem_filterMap.1 h
  by_cases hlt : p.1 < catalog.length
  · rw [if_pos hlt] at hp
    obtain ⟨it, hit, htit⟩ := Option.map_eq_some'.1 hp
    exact htit ▸ List.mem_map_of_mem Item.title (List.get?_mem hit)
  · rw [if_neg hlt] at hp
    exact absurd hp (Option.noConfusion)

theorem recommendPairs_of_not_found {movie : String} {catalog : List Item}
    {sim : Option SimMatrix} (h : findMovieIndex movie catalog = Option.none) :
    recommendPairs movie catalog sim = [] := by
  cases sim with
  | none => rfl
  | some s => simp [recommendPairs, h]

theorem rankFromIndex_some {mi : Nat} {matrix : SimMatrix} {row : List Cell}
    (h : matrix.get? mi = some row) :
    rankFromIndex mi (Option.some matrix) = top_n mi row := by
  simp only [rankFromIndex]
  rw [h]

/-- Filtering the seed index out of the stably descending-sorted list equals
sorting the filtered list by the total order "score descending, ties by
ascending index", provided the input carries strictly increasing indices.
This is the bridge between the code (sort, then self-exclude) and the spec
(self-exclude, then sort with an explicit tie-break). -/
theorem filter_sortByScoreDesc_eq (qi : Nat) (l : List (Nat × ℚ))
    (h : l.Pairwise fun a b => a.1 < b.1) :
    (sortByScoreDesc l).filter (fun t => t.1 != qi) =
      (l.filter fun t => t.1 != qi).insertionSort specLE := by
  refine List.eq_of_perm_of_sorted (r := specLE) ?_ ?_ ?_
  · exact ((List.perm_insertionSort pyLE l).filter _).trans
      (List.perm_insertionSort specLE _).symm
  · exact List.Pairwise.imp specLT_le
      (List.Pairwise.sublist (List.filter_sublist _) (sortByScoreDesc_pairwise_specLT h))
  · exact List.sorted_insertionSort specLE _

theorem recommend_eq_recommendSpec (movie : String) (catalog : List Item)
    (matrix : SimMatrix) (hlen : matrix.length = catalog.length)
    (hrows : ∀ row ∈ matrix, row.length = catalog.length) :
    recommend movie catalog (Option.some matrix) = recommendSpec movie catalog matrix 5 := by
  cases hf : findMovieIndex movie catalog with
  | none =>
      rw [recommend, recommendPairs_of_not_found hf]
      simp [recommendSpec, hf, emitTitles]
  | some qi =>
      have hqm : qi < matrix.length := hlen ▸ findMovieIndex_lt_length hf
      obtain ⟨row, hrow⟩ : ∃ row, matrix.get? qi = some row := ⟨_, List.get?_eq_get hqm⟩
      have hrowlen : row.length = catalog.length := hrows row (List.get?_mem hrow)
      have hpairs : (cleanDistances (pyEnum row)).Pairwise fun a b => a.1 < b.1 :=
        pairwise_fst_cleanDistances (pairwise_fst_enumFromN row 0)
      rw [recommend, recommendPairs_of_found hf, rankFromIndex_some hrow]
      simp only [recommendSpec, hf, hrow]
      unfold top_n validCandidates emitTitles
      rw [filter_sortByScoreDesc_eq qi _ hpairs]
      refine List.filterMap_congr ?_
      intro t ht
      have htmem : t ∈ cleanDistances (pyEnum row) :=
        (List.filter_sublist _).subset
          ((List.mem_insertionSort specLE).1 ((List.take_sublist _ _).subset ht))
      have hget : row.get? t.1 = some (Cell.num t.2) := mem_cleanRow.1 htmem
      obtain ⟨hlt, -⟩ := List.get?_eq_some.1 hget
      rw [if_pos (hrowlen ▸ hlt)]

/-! Claim theorems. -/

/-- C1: for every catalog, aligned matrix, and query title, `recommend`
returns the sequence obtained by taking the query item's matrix row,
keeping the finite numeric cells, removing the query's own index, sorting
by descending score with ties by ascending index, truncating to the first
k entries (the code fixes k = 5), and mapping each surviving index to its
catalog item's title; and on catalog [A(0), B(1), C(2)] with row-for-A
[1.0, 0.8, 0.2], `recommend "A"` is [B, C] (the k = 2 truncation of the
spec pipeline gives the same list). -/
theorem c1_recommend_matches_spec :
    (∀ (movie : String) (catalog : List Item) (matrix : SimMatrix),
        matrix.length = catalog.length →
        (∀ row ∈ matrix, row.length = catalog.length) →
        recommend movie catalog (Option.some matrix) = recommendSpec movie catalog matrix 5) ∧
      recommend "A" exCatalog (Option.some exMatrix) = ["B", "C"] ∧
      recommendSpec "A" exCatalog exMatrix 2 = ["B", "C"] :=
  ⟨recommend_eq_recommendSpec, by decide, by decide⟩

/-- Witness for C1: the alignment hypotheses hold for the worked example and
the general equation instantiates to it. -/
theorem c1_witness :
    exMatrix.length = exCatalog.length ∧
      recommend "A" exCatalog (Option.some exMatrix) = recommendSpec "A" exCatalog exMatrix 5 :=
  ⟨by decide, c1_recommend_matches_spec.1 "A" exCatalog exMatrix (by decide) (by decide)⟩

/-- C3: if no catalog item's title equals the query title, `recommend`
returns the empty result; the embedding is a total function, modelling that
the Python code returns `[], []` on this path rather than raising. -/
theorem c3_unknown_query (movie : String) (catalog : List Item)
    (sim : Option SimMatrix) (h : ∀ it ∈ catalog, it.title ≠ movie) :
    recommend movie catalog sim = [] := by
  rw [recommend, recommendPairs_of_not_found (findMovieIndex_eq_none h)]
  rfl

/-- Witness for C3 at the concrete unknown title "Z". -/
theorem c3_witness :
    (∀ it ∈ exCatalog, it.title ≠ "Z") ∧
      recommend "Z" exCatalog (Option.some exMatrix) = [] :=
  ⟨by decide, c3_unknown_query "Z" exCatalog (Option.some exMatrix) (by decide)⟩

/-- C4: no pair surviving to the emission loop carries the query item's
resolved index, so the query item is never its own recommendation. -/
theorem c4_self_exclusion (movie : String) (catalog : List Item)
    (sim : Option SimMatrix) (qi : Nat) (h : findMovieIndex movie catalog = some qi) :
    ∀ p ∈ recommendPairs movie catalog sim, p.1 ≠ qi := by
  intro p hp
  obtain ⟨qi', _, _, -, hf, -, -, hne⟩ := mem_recommendPairs hp
  obtain rfl : qi' = qi := Option.some.inj (hf.symm.trans h)
  exact hne

/-- Witness for C4: in the worked example the query resolves to index 0 and
the surviving pair (1, 0.8) indeed has a different index. -/
theorem c4_witness :
    findMovieIndex "A" exCatalog = some 0 ∧
      (1, q45) ∈ recommendPairs "A" exCatalog (Option.some exMatrix) ∧ (1 : Nat) ≠ 0 :=
  ⟨by decide, by decide,
    c4_self_exclusion "A" exCatalog (Option.some exMatrix) 0 (by decide) (1, q45) (by decide)⟩

/-- C5: the pairs surviving to emission are sorted by non-increasing score,
and any two entries with exactly equal scores appear in ascending
catalog-index order. -/
theorem c5_sorted_desc_ties_asc (movie : String) (catalog : List Item)
    (sim : Option SimMatrix) :
    (recommendPairs movie catalog sim).Pairwise fun a b =>
      b.2 ≤ a.2 ∧ (a.2 = b.2 → a.1 < b.1) := by
  refine (recommendPairs_pairwise_specLT movie catalog sim).imp ?_
  rintro a b (h | ⟨h1, h2⟩)
  · exact ⟨le_of_lt h, fun he => absurd (he ▸ h) (lt_irrefl _)⟩
  · exact ⟨le_of_eq h1.symm, fun _ => h2⟩

/-- C9: `recommend` is a pure function of its inputs — repeated invocations
on equal catalog, matrix, and query return identical output. -/
theorem c9_deterministic (movie₁ movie₂ : String) (catalog₁ catalog₂ : List Item)
    (sim₁ sim₂ : Option SimMatrix) (hm : movie₁ = movie₂) (hc : catalog₁ = catalog₂)
    (hs : sim₁ = sim₂) :
    recommend movie₁ catalog₁ sim₁ = recommend movie₂ catalog₂ sim₂ := by
  rw [hm, hc, hs]

/-- Witness for C9 on the worked example. -/
theorem c9_witness :
    recommend "A" exCatalog (Option.some exMatrix) =
      recommend "A" exCatalog (Option.some exMatrix) :=
  c9_deterministic "A" "A" exCatalog exCatalog (Option.some exMatrix)
    (Option.some exMatrix) rfl rfl rfl

/-- C10: every title emitted by `recommend` is the title of an actual
catalog item; candidate indices outside the catalog range are skipped at
emission (the embedding is total, so no out-of-bounds access occurs). -/
theorem c10_titles_from_catalog (movie : String) (catalog : List Item)
    (sim : Option SimMatrix) :
    ∀ t ∈ recommend movie catalog sim, t ∈ catalog.map Item.title :=
  fun _ ht => mem_recommend_titles ht

/-- Witness for C10 on the oversized 5x5 matrix: the emitted title "B" is a
catalog title even though the matrix row mentions indices 3 and 4. -/
theorem c10_witness :
    "B" ∈ recommend "A" exCatalog (Option.some exMatrix5) ∧
      "B" ∈ exCatalog.map Item.title :=
  ⟨by decide,
    c10_titles_from_catalog "A" exCatalog (Option.some exMatrix5) "B" (by decide)⟩

theorem rankFromIndex_row_missing {mi : Nat} {matrix : SimMatrix}
    (h : matrix.get? mi = Option.none) :
    rankFromIndex mi (Option.some matrix) = [] := by
  simp only [rankFromIndex]
  rw [h]

theorem recommendPairs_length_le (movie : String) (catalog : List Item)
    (sim : Option SimMatrix) : (recommendPairs movie catalog sim).length ≤ 5 := by
  unfold recommendPairs
  split
  · exact Nat.zero_le 5
  · split
    · exact Nat.zero_le 5
    · split
      · exact Nat.zero_le 5
      · split
        · exact Nat.zero_le 5
        · exact List.length_take_le 5 _

/-- C2 counterexample: a 5-row matrix against the 3-item catalog is a size
mismatch, yet `recommend` returns a non-empty recommendation list. -/
theorem c2_counterexample :
    exMatrix5.length ≠ exCatalog.length ∧
      recommend "A" exCatalog (Option.some exMatrix5) ≠ [] := by decide

/-- C2 (amended): on a size mismatch `check_alignment` sets a non-empty
diagnostic, and `recommend` returns the empty result when the resolved
query index has no matrix row; but when the row exists, `recommend` ranks
it as usual and merely skips out-of-catalog indices at emission, so the
mismatch can still lead to a non-empty recommendation list drawn from real
catalog items. -/
theorem c2_mismatch_diagnostic (catalog : List Item) (matrix : SimMatrix)
    (movie : String) (h : matrix.length ≠ catalog.length) :
    (check_alignment catalog (Option.some matrix)).2.2 ≠ "" ∧
      (∀ qi, findMovieIndex movie catalog = some qi → matrix.length ≤ qi →
        recommend movie catalog (Option.some matrix) = []) ∧
      ∀ t ∈ recommend movie catalog (Option.some matrix), t ∈ catalog.map Item.title := by
  refine ⟨?_, ?_, fun t ht => mem_recommend_titles ht⟩
  · have hmsg : (check_alignment catalog (Option.some matrix)).2.2 =
        "Warning: length mismatch — movies: " ++ toString catalog.length ++
          " vs similarity: " ++ toString matrix.length := by
      simp [check_alignment, h]
    rw [hmsg]
    intro heq
    have hlen := congrArg String.length heq
    rw [String.length_append, String.length_append, String.length_append] at hlen
    have h0 : ("" : String).length = 0 := rfl
    rw [h0] at hlen
    have h1 : 0 < ("Warning: length mismatch — movies: " : String).length := by decide
    omega
  · intro qi hf hle
    rw [recommend, recommendPairs_of_found hf,
      rankFromIndex_row_missing (List.get?_eq_none.2 hle)]
    rfl

/-- Witness for the amended C2 on the concrete 3-item catalog and 5-row
matrix. -/
theorem c2_witness :
    exMatrix5.length ≠ exCatalog.length ∧
      (check_alignment exCatalog (Option.some exMatrix5)).2.2 ≠ "" :=
  ⟨by decide, (c2_mismatch_diagnostic exCatalog exMatrix5 "A" (by decide)).1⟩

/-- C6: the result never exceeds 5 entries (the code fixes k = 5), and when
at most 5 valid candidates survive cleaning, self-exclusion, and sorting,
the whole surviving candidate list is emitted unchanged — the shorter list
is returned as-is, with no padding by other catalog items. -/
theorem c6_bounded_no_padding (movie : String) (catalog : List Item)
    (sim : Option SimMatrix) :
    (recommend movie catalog sim).length ≤ 5 ∧
      ∀ qi matrix row, sim = Option.some matrix →
        findMovieIndex movie catalog = some qi → matrix.get? qi = some row →
        (validCandidates qi row).length ≤ 5 →
        recommend movie catalog sim = emitTitles catalog (validCandidates qi row) := by
  constructor
  · exact le_trans (List.length_filterMap_le _ _) (recommendPairs_length_le movie catalog sim)
  · intro qi matrix row hsim hf hrow hshort
    subst hsim
    rw [recommend, recommendPairs_of_found hf, rankFromIndex_some hrow, top_n,
      List.take_of_length_le hshort]

/-- Witness for C6: the worked example has only two valid candidates, and
the emitted result is exactly their emission, unpadded. -/
theorem c6_witness :
    findMovieIndex "A" exCatalog = some 0 ∧ exMatrix.get? 0 = some exRowA ∧
      (validCandidates 0 exRowA).length ≤ 5 ∧
      recommend "A" exCatalog (Option.some exMatrix) =
        emitTitles exCatalog (validCandidates 0 exRowA) :=
  ⟨by decide, by decide, by decide,
    (c6_bounded_no_padding "A" exCatalog (Option.some exMatrix)).2 0 exMatrix exRowA rfl
      (by decide) (by decide) (by decide)⟩

/-- C7: a pair (i, v) enters the candidate set iff cell i of the query row
is the finite numeric value v — absent positions, `None`, NaN, and
non-numeric cells are dropped, not ranked or zeroed; every pair surviving
to emission still denotes a finite numeric cell of the row; and the
survivors are validly ranked by non-increasing score.  The embedding is a
total function, modelling that no exception escapes the cleaning loop. -/
theorem c7_bad_cells_dropped (row : List Cell) (mi : Nat) :
    (∀ i v, (i, v) ∈ cleanDistances (pyEnum row) ↔ row.get? i = some (Cell.num v)) ∧
      (∀ p ∈ top_n mi row, row.get? p.1 = some (Cell.num p.2)) ∧
      (top_n mi row).Pairwise fun a b => b.2 ≤ a.2 := by
  refine ⟨fun i v => mem_cleanRow, ?_, ?_⟩
  · intro p hp
    exact (mem_validCandidates.1 (mem_top_n hp)).1
  · refine (top_n_pairwise_specLT mi row).imp ?_
    rintro a b (h | ⟨h1, -⟩)
    · exact le_of_lt h
    · exact le_of_eq h1.symm

/-- Witness for C7 on the row containing a NaN: cell 2 holds the finite
value 0.2 and is kept. -/
theorem c7_witness :
    (2, q15) ∈ cleanDistances (pyEnum exRowNaN) ↔ exRowNaN.get? 2 = some (Cell.num q15) :=
  (c7_bad_cells_dropped exRowNaN 0).1 2 q15

/-- C8: with duplicate titles in the catalog, the query resolves to the
lowest index bearing the title — that index's item has the query title and
no smaller index does — and the ranking pipeline runs from that index's
matrix row. -/
theorem c8_first_match (movie : String) (catalog : List Item) (qi : Nat)
    (h : findMovieIndex movie catalog = some qi) :
    (∃ it, catalog.get? qi = some it ∧ it.title = movie) ∧
      (∀ j it', j < qi → catalog.get? j = some it' → it'.title ≠ movie) ∧
      ∀ sim, recommendPairs movie catalog sim = rankFromIndex qi sim := by
  obtain ⟨it, hget, htitle, hmin⟩ := findMovieIndex_spec h
  exact ⟨⟨it, hget, htitle⟩, hmin, fun sim => recommendPairs_of_found h⟩

/-- Witness for C8 on a catalog whose titles are A, B, A: the query "A"
resolves to index 0. -/
theorem c8_witness :
    findMovieIndex "A" exDupCatalog = some 0 ∧
      ∃ it, exDupCatalog.get? 0 = some it ∧ it.title = "A" :=
  ⟨by decide, (c8_first_match "A" exDupCatalog 0 (by decide)).1⟩

example : recommend "A" exCatalog (Option.some exMatrix) = ["B", "C"] := by decide

example : recommend "Z" exCatalog (Option.some exMatrix) = [] := by decide

example : recommend "A" exCatalog (Option.some exMatrixNaN) = ["C"] := by decide

example : recommend "A" exCatalog (Option.some exMatrix5) = ["B", "C"] := by decide

end MovieApp
